import Mathlib

/-!
Verification development for `ccobra_bench/evaluator.py`.

The Python module is shallowly embedded below:
* Python values that flow through the response columns are `PyVal`
  (a string, a number, or a nested list).
* Python `str.split(sep)` (single-character separators only, which is all
  the evaluator uses) is `splitOnChar` / `pySplitStr`; calling `.split` on a
  non-string raises `AttributeError`, which `pySplit` models in `Except`.
* The inline response-decoding expressions of `Evaluator.evaluate`
  (lines 131-135 and 163-167) are `decodeResponse`.
* `pandas.unique` (first-occurrence order) is `uniq`; the id remapping of
  `Evaluator.__init__` (lines 55-63) is `new_train_ids` / `new_test_ids` /
  `seriesReplace`.
* A dataframe row is `Row` (its index label plus its columns in column
  order); `sort_values`, `groupby` (pandas sorts group keys by default)
  and the training-record construction (lines 113-140) are embedded below.
* The per-model evaluation loop, the `dir_context` context manager and the
  model loading/unloading registration are embedded as explicit state
  passing over `Sys`, with an event trace recording the calls into the
  model hooks.  The model hooks themselves (`predict`, `adapt`,
  `pre_train`, the comparator) are external collaborators and enter as
  parameters.
-/

/-- A Python value as it appears in the response-related columns: a string,
a number, or a (possibly nested) list. -/
inductive PyVal where
  | str : String → PyVal
  | int : Int → PyVal
  | list : List PyVal → PyVal

/-- The Python exceptions the embedded code can raise. The two `ValueError`s
raised by the applicability check (evaluator.py lines 103 and 109) are kept
as separate constructors carrying the model name and the offending values. -/
inductive PyErr where
  | attributeError : String → PyErr
  | keyError : String → PyErr
  | unsupportedDomains : String → List String → PyErr
  | unsupportedResponseTypes : String → List String → PyErr
deriving DecidableEq

/-- Python `str.split` with a one-character separator, on the character
list of the string: splits at every separator occurrence and keeps empty
segments, so `"".split(c) == [""]` and `";".split(";") == ["", ""]`. -/
def splitOnChar (sep : Char) : List Char → List (List Char)
  | [] => [[]]
  | c :: rest =>
    match splitOnChar sep rest with
    | [] => [[]]
    | seg :: segs => if c = sep then [] :: seg :: segs else (c :: seg) :: segs

/-- Python `s.split(sep)` for a string `s` and one-character `sep`. -/
def pySplitStr (s : String) (sep : Char) : List String :=
  (splitOnChar sep s.toList).map List.asString

/-- Python `v.split(sep)`: only strings have a `split` attribute; on any
other value the attribute access raises `AttributeError`. -/
def pySplit (v : PyVal) (sep : Char) : Except PyErr PyVal :=
  match v with
  | .str s => .ok (.list ((pySplitStr s sep).map PyVal.str))
  | _ => .error (.attributeError "split")

/-- A Python list comprehension `[f(x) for x in xs]` whose body may raise:
elements are evaluated left to right and the first raised exception
propagates. -/
def exMapM {β γ : Type} (f : β → Except PyErr γ) : List β → Except PyErr (List γ)
  | [] => .ok []
  | x :: xs =>
    match f x with
    | .error e => .error e
    | .ok y =>
      match exMapM f xs with
      | .error e => .error e
      | .ok ys => .ok (y :: ys)

/-- The list comprehension `[x.split(sep) for x in v]`: maps `pySplit`
over the elements of a list value, propagating a raised exception. -/
def pySplitEach (v : PyVal) (sep : Char) : Except PyErr PyVal :=
  match v with
  | .list l => (exMapM (fun x => pySplit x sep) l).map PyVal.list
  | _ => .error (.attributeError "split")

/-- The Python test `value == 'multiple-choice'`: equality against a string
literal, false for every non-string value. -/
def isMultipleChoice : PyVal → Bool
  | .str s => s = "multiple-choice"
  | _ => false

/-- The response-decoding step of `Evaluator.evaluate` (lines 163-167, and
identically lines 131-135): a non-string value is left untouched.  A string
is decoded; in the multiple-choice branch the source evaluates
`[y.split(';') for y in [x.split('/') for x in truth.split('|')]]`
(the outer comprehension runs over the results of the inner one), in the
plain branch `[x.split(';') for x in truth.split('/')]`. -/
def decodeResponse (response_type : PyVal) (truth : PyVal) : Except PyErr PyVal :=
  match truth with
  | .str s =>
    if isMultipleChoice response_type then
      match pySplit (.str s) '|' with
      | .error e => .error e
      | .ok parts =>
        match pySplitEach parts '/' with
        | .error e => .error e
        | .ok inner => pySplitEach inner ';'
    else
      match pySplit (.str s) '/' with
      | .error e => .error e
      | .ok parts => pySplitEach parts ';'
  | v => .ok v

/-- `pandas.unique`: the distinct values of a column in first-occurrence
order. -/
def uniq {α : Type} [DecidableEq α] : List α → List α
  | [] => []
  | a :: l => a :: ((uniq l).filter (· ≠ a))

theorem mem_uniq {α : Type} [DecidableEq α] (l : List α) (x : α) :
    x ∈ uniq l ↔ x ∈ l := by
  induction l with
  | nil => simp [uniq]
  | cons a l ih =>
    simp only [uniq, List.mem_cons, List.mem_filter, ih]
    constructor
    · rintro (rfl | ⟨h, _⟩)
      · exact Or.inl rfl
      · exact Or.inr h
    · rintro (rfl | h)
      · exact Or.inl rfl
      · by_cases hx : x = a
        · exact Or.inl hx
        · exact Or.inr ⟨h, by simpa using hx⟩

theorem nodup_uniq {α : Type} [DecidableEq α] (l : List α) : (uniq l).Nodup := by
  induction l with
  | nil => simp [uniq]
  | cons a l ih =>
    refine List.Nodup.cons ?_ (List.Nodup.filter _ ih)
    intro hmem
    have := List.of_mem_filter hmem
    simp at this

/-- Python `range(start, start+len)` as a list of Python ints. -/
def rangeInt (start len : Nat) : List Int :=
  (List.range' start len).map Int.ofNat

/-- `dict(zip(train_ids, range(len(train_ids))))` of `Evaluator.__init__`
line 58, as an association list. -/
def new_train_ids (train : List Int) : List (Int × Int) :=
  (uniq train).zip (rangeInt 0 (uniq train).length)

/-- `dict(zip(test_ids, range(len(train_ids), len(train_ids) + len(test_ids))))`
of `Evaluator.__init__` line 62. -/
def new_test_ids (train test : List Int) : List (Int × Int) :=
  (uniq test).zip (rangeInt (uniq train).length (uniq test).length)

/-- Applying a replacement dict to one value: `Series.replace` maps a value
through the dict and leaves values without an entry unchanged. -/
def applyMap (m : List (Int × Int)) (v : Int) : Int :=
  ((m.lookup v).getD v)

/-- `Series.replace(mapping)` over a whole id column (lines 59 and 63):
a simultaneous, element-wise replacement. -/
def seriesReplace (col : List Int) (m : List (Int × Int)) : List Int :=
  col.map (applyMap m)

/-- One dataframe row: its index label (`iterrows` yields it as the first
component; `pandas.read_csv` assigns the default `RangeIndex`, i.e. the row
position in the file) and its columns, in column order, as an association
list from column name to value. -/
structure Row where
  idx : Int
  cols : List (String × PyVal)

/-- `row[k]`: column access on a row.  The rows considered in the theorems
below always carry the accessed columns; the default is arbitrary. -/
def Row.col (r : Row) (k : String) : PyVal :=
  ((r.cols).lookup k).getD (PyVal.str "")

/-- Reads a numeric cell.  The `id` and `sequence` columns of a CCOBRA
dataset hold numbers; the fallback for other shapes is arbitrary. -/
def PyVal.toIntD : PyVal → Int
  | .int n => n
  | _ => 0

/-- The per-row `sequence` sort key used by `sort_values(['sequence'])`. -/
def seqKey (r : Row) : Int := (r.col "sequence").toIntD

/-- The per-row `id` grouping key used by `groupby('id')`. -/
def idKey (r : Row) : Int := (r.col "id").toIntD

instance rowLeDec : DecidableRel (fun a b : Row => seqKey a ≤ seqKey b) :=
  fun a b => Int.decLe _ _

instance rowLeTotal : IsTotal Row (fun a b => seqKey a ≤ seqKey b) :=
  ⟨fun a b => Int.le_total _ _⟩

instance rowLeTrans : IsTrans Row (fun a b => seqKey a ≤ seqKey b) :=
  ⟨fun _ _ _ h1 h2 => le_trans h1 h2⟩

/-- `df.sort_values(['sequence'])`: the rows reordered into ascending
`sequence` order. -/
def sort_values (df : List Row) : List Row :=
  List.insertionSort (fun a b => seqKey a ≤ seqKey b) df

/-- `df.groupby('id')`: pandas groups by the distinct values of the column
and, with the default `sort=True`, yields the groups in ascending key
order; within a group the rows keep their dataframe order. -/
def groupby (df : List Row) : List (Int × List Row) :=
  (List.insertionSort (· ≤ ·) (uniq (df.map idKey))).map
    (fun k => (k, df.filter (fun r => idKey r == k)))

/-- `ccobra.data.Item(identifier, domain, task, response_type, choices)`
as constructed at evaluator.py lines 122-124 and 169-170. -/
structure Item where
  ident : Int
  domain : PyVal
  task : PyVal
  response_type : PyVal
  choices : PyVal

/-- The `Item` built from a subject id and a row. -/
def mkItem (subj_id : Int) (r : Row) : Item :=
  { ident := subj_id, domain := r.col "domain", task := r.col "task",
    response_type := r.col "response_type", choices := r.col "choices" }

/-- A value stored in a training dict: either a column value or the
constructed `Item`. -/
inductive TVal where
  | py : PyVal → TVal
  | item : Item → TVal

/-- Projects a training-dict value back to a column value.  It is applied
only to entries merged from a row, which are always `py`; the fallback is
an arbitrary non-string, faithful to the fact that an `Item` never equals
the string `'multiple-choice'` in the decode test. -/
def TVal.toPy : TVal → PyVal
  | .py v => v
  | .item _ => .int 0

/-- `key in train_dict`. -/
def dictHas (d : List (String × TVal)) (k : String) : Bool :=
  (d.lookup k).isSome

/-- `train_dict[k] = v` for a key that is already present: a Python dict
keeps the key's position on overwrite. -/
def dictSet (d : List (String × TVal)) (k : String) (v : TVal) :
    List (String × TVal) :=
  d.map (fun kv => if kv.1 = k then (kv.1, v) else kv)

/-- The training-record construction of evaluator.py lines 119-135 for one
row: `seq_info, row` come from `iterrows()`, so `seq_info` is the row's
index label `r.idx`; the dict starts with `id`, `sequence`, `item`, then
every column whose name is not already a key is merged in row order, and
finally a string `response` entry is decoded in place (a missing key in
the decode step would raise `KeyError`). -/
def buildTrainDict (id_info : Int) (r : Row) :
    Except PyErr (List (String × TVal)) :=
  let base : List (String × TVal) :=
    [("id", .py (.int id_info)), ("sequence", .py (.int r.idx)),
     ("item", .item (mkItem id_info r))]
  let merged := r.cols.foldl
    (fun d kv => if dictHas d kv.1 then d else d ++ [(kv.1, TVal.py kv.2)])
    base
  match merged.lookup "response" with
  | none => .error (.keyError "response")
  | some (.py (.str s)) =>
    match merged.lookup "response_type" with
    | none => .error (.keyError "response_type")
    | some rtv =>
      (decodeResponse rtv.toPy (.str s)).map
        (fun dec => dictSet merged "response" (.py dec))
  | some _ => .ok merged

/-- Lines 117-137: one subject's training records, rows sorted by
`sequence`. -/
def buildSubjData (id_info : Int) (g : List Row) :
    Except PyErr (List (List (String × TVal))) :=
  exMapM (buildTrainDict id_info) (sort_values g)

/-- Lines 115-138: the full `train_data_dicts` structure, one list per
subject group. -/
def prepareTrainData (train : List Row) :
    Except PyErr (List (List (List (String × TVal)))) :=
  exMapM (fun kg => buildSubjData kg.1 kg.2) (groupby train)

/-- One observable call into the loaded model unit or its registration
machinery, in the order the engine performs them. -/
inductive Event where
  | moduleLoad : String → Event
  | preTrainCall : String → Event
  | participantStart : String → Int → Event
  | predictCall : String → Int → Int → Event
  | compareCall : String → Int → Int → Event
  | adaptCall : String → Int → Int → Event
  | moduleUnload : String → Event
deriving DecidableEq

/-- The process-wide state the evaluator mutates: the working directory,
`sys.path`, the set of module registrations performed by the model loader
(modelled from the spec: loading registers the model's code unit, a
successful `unimport` removes the registration), and the trace of hook
calls performed so far. -/
structure Sys where
  cwd : String
  searchPath : List String
  registered : List String
  trace : List Event
deriving DecidableEq

/-- Appends one event to the trace. -/
def emit (s : Sys) (e : Event) : Sys := { s with trace := s.trace ++ [e] }

/-- The `dir_context` context manager (evaluator.py lines 13-22): record
the old working directory, enter `path`, append `path` to the search path,
run the body, and in the `finally` block restore the working directory and
`sys.path.remove(path)` (which drops the first matching entry).  The body's
outcome — normal or a raised exception — passes through unchanged, and the
restoration happens on both exits.  (`list.remove` would raise on a missing
entry; the entry appended on entry is present in every run considered
here, where the body leaves the search path alone.) -/
def dir_context {α : Type} (path : String) (body : Sys → Sys × Except PyErr α)
    (s : Sys) : Sys × Except PyErr α :=
  let old_dir := s.cwd
  let entered : Sys := { s with cwd := path, searchPath := s.searchPath ++ [path] }
  let out := body entered
  ({ out.1 with cwd := old_dir, searchPath := (out.1.searchPath).erase path }, out.2)

/-- A model list entry as the evaluator sees it: its `name`, the directory
containing it (`os.path.dirname(os.path.abspath(model))`), and the
capability sets the instantiated pre-model declares. -/
structure CModel where
  name : String
  dir : String
  supported_domains : List String
  supported_response_types : List String

/-- One record of `result_data` (evaluator.py lines 180-190). -/
structure ResultRow where
  model : String
  id : Int
  domain : PyVal
  sequence : PyVal
  task : PyVal
  choices : PyVal
  truth : PyVal
  prediction : String
  hit : Bool

/-- `self.domains - set(...)` / `self.response_types - set(...)`: the
registry values the model does not support (lines 101 and 107). -/
def missingFrom (registry supported : List String) : List String :=
  registry.filter (fun d => !(supported.contains d))

section Engine

/- The model hooks and the comparator are external collaborators (spec
sections 1 and 6): `predict`, the comparator's `compare`, and
`comparator.tuple_to_string` enter as parameters of the engine. -/
variable (predictFn : String → Item → PyVal)
variable (compareFn : PyVal → PyVal → Bool)
variable (displayFn : PyVal → String)

/-- One iteration of the trial loop (lines 152-190): decode the stored
response if it is still a string (a raised decode error propagates), build
an `Item`, predict, compare, adapt, and append one result row. -/
def runTrial (mname : String) (subj_id : Int) (r : Row) (s : Sys) :
    Sys × Except PyErr ResultRow :=
  match decodeResponse (r.col "response_type") (r.col "response") with
  | .error e => (s, .error e)
  | .ok truth =>
    let q := seqKey r
    let pred := predictFn mname (mkItem subj_id r)
    let s1 := emit s (.predictCall mname subj_id q)
    let hit := compareFn pred truth
    let s2 := emit s1 (.compareCall mname subj_id q)
    let s3 := emit s2 (.adaptCall mname subj_id q)
    (s3, .ok { model := mname, id := subj_id, domain := r.col "domain",
               sequence := r.col "sequence", task := r.col "task",
               choices := r.col "choices", truth := truth,
               prediction := displayFn pred, hit := hit })

/-- The trial loop over an already-sorted list of rows, accumulating result
rows; a raised exception aborts the loop and propagates. -/
def runTrials (mname : String) (subj_id : Int) :
    List Row → Sys → List ResultRow → Sys × Except PyErr (List ResultRow)
  | [], s, acc => (s, .ok acc)
  | r :: rest, s, acc =>
    match runTrial predictFn compareFn displayFn mname subj_id r s with
    | (s', .ok row) => runTrials mname subj_id rest s' (acc ++ [row])
    | (s', .error e) => (s', .error e)

/-- One subject (lines 143-190): clone the pre-model, start the
participant, then run the subject's trials sorted by `sequence`. -/
def runSubject (mname : String) (subj_id : Int) (g : List Row) (s : Sys) :
    Sys × Except PyErr (List ResultRow) :=
  runTrials predictFn compareFn displayFn mname subj_id (sort_values g)
    (emit s (.participantStart mname subj_id)) []

/-- The per-subject loop over the groups `groupby('id')` yields. -/
def runSubjects (mname : String) :
    List (Int × List Row) → Sys → List ResultRow →
      Sys × Except PyErr (List ResultRow)
  | [], s, acc => (s, .ok acc)
  | kg :: rest, s, acc =>
    match runSubject predictFn compareFn displayFn mname kg.1 kg.2 s with
    | (s', .ok rows) => runSubjects mname rest s' (acc ++ rows)
    | (s', .error e) => (s', .error e)

/-- Lines 143-194 after a successful applicability check and pre-training:
run every subject group and, on success, deregister the module
(`importer.unimport()`).  A raised exception skips the deregistration. -/
def finishModel (mname : String) (test : List Row) (s : Sys) :
    Sys × Except PyErr (List ResultRow) :=
  match runSubjects predictFn compareFn displayFn mname (groupby test) s [] with
  | (s3, .error e) => (s3, .error e)
  | (s3, .ok rows) =>
    (emit { s3 with registered := s3.registered.erase mname }
      (.moduleUnload mname), .ok rows)

/-- The body of the `with dir_context(context)` block for one model
(lines 94-194): load and instantiate the model (modelled from the spec:
the loader registers the model's code unit), check applicability against
the domain and response-type registries, optionally build the training
data and pre-train, then run the subjects. -/
def evalModelBody (domains response_types : List String)
    (train : Option (List Row)) (test : List Row) (m : CModel) (s0 : Sys) :
    Sys × Except PyErr (List ResultRow) :=
  let s1 := emit { s0 with registered := s0.registered ++ [m.name] }
    (.moduleLoad m.name)
  if missingFrom domains m.supported_domains = [] then
    if missingFrom response_types m.supported_response_types = [] then
      match train with
      | none => finishModel predictFn compareFn displayFn m.name test s1
      | some tr =>
        match prepareTrainData tr with
        | .error e => (s1, .error e)
        | .ok _ =>
          finishModel predictFn compareFn displayFn m.name test
            (emit s1 (.preTrainCall m.name))
    else
      (s1, .error (.unsupportedResponseTypes m.name
        (missingFrom response_types m.supported_response_types)))
  else
    (s1, .error (.unsupportedDomains m.name
      (missingFrom domains m.supported_domains)))

/-- One iteration of the model loop: the whole per-model evaluation runs
inside `dir_context`. -/
def evalModel (domains response_types : List String)
    (train : Option (List Row)) (test : List Row) (m : CModel) (s : Sys) :
    Sys × Except PyErr (List ResultRow) :=
  dir_context m.dir
    (evalModelBody predictFn compareFn displayFn domains response_types
      train test m) s

/-- The model loop of `Evaluator.evaluate` (line 86): models are evaluated
in list order; an exception raised while evaluating one model propagates
out of `evaluate` immediately, so the accumulated rows are lost and the
remaining models are not evaluated. -/
def evalLoop (domains response_types : List String)
    (train : Option (List Row)) (test : List Row) :
    List CModel → Sys → List ResultRow → Sys × Except PyErr (List ResultRow)
  | [], s, acc => (s, .ok acc)
  | m :: rest, s, acc =>
    match evalModel predictFn compareFn displayFn domains response_types
        train test m s with
    | (s', .ok rows) =>
      evalLoop domains response_types train test rest s' (acc ++ rows)
    | (s', .error e) => (s', .error e)

/-- `Evaluator.evaluate`: returns the result table on success, or the
propagated exception. -/
def evaluate (domains response_types : List String)
    (train : Option (List Row)) (test : List Row) (models : List CModel)
    (s : Sys) : Sys × Except PyErr (List ResultRow) :=
  evalLoop predictFn compareFn displayFn domains response_types train test
    models s []

end Engine

/-- The subject ids of the `start_participant` calls in a trace, in call
order. -/
def participantOrder (tr : List Event) : List Int :=
  tr.filterMap (fun e => match e with
    | .participantStart _ i => some i
    | _ => none)

/-! Helper lemmas. -/

theorem exMapM_pySplit_strs (l : List String) (sep : Char) :
    (exMapM (fun x => pySplit x sep) (l.map PyVal.str))
      = .ok (l.map (fun seg => PyVal.list ((pySplitStr seg sep).map PyVal.str))) := by
  induction l with
  | nil => rfl
  | cons a l ih =>
    rw [List.map_cons, exMapM,
      show pySplit (PyVal.str a) sep
          = Except.ok (PyVal.list ((pySplitStr a sep).map PyVal.str)) from rfl,
      ih]
    rfl

theorem pySplitEach_ok_shape {v : PyVal} {sep : Char} {w : PyVal}
    (h : pySplitEach v sep = .ok w) : ∃ l, w = PyVal.list l := by
  cases v with
  | list l =>
    cases hm : exMapM (fun x => pySplit x sep) l with
    | error e => simp [pySplitEach, hm, Except.map] at h
    | ok l' =>
      simp only [pySplitEach, hm, Except.map] at h
      exact ⟨l', (Except.ok.inj h).symm⟩
  | str s => simp [pySplitEach] at h
  | int n => simp [pySplitEach] at h

theorem decode_str_shape {rt : PyVal} {s : String} {w : PyVal}
    (h : decodeResponse rt (.str s) = .ok w) : ∃ l, w = PyVal.list l := by
  unfold decodeResponse at h
  cases hmc : isMultipleChoice rt
  all_goals rw [hmc] at h; dsimp only at h
  · rw [if_neg Bool.false_ne_true] at h
    rw [show pySplit (PyVal.str s) '/'
        = Except.ok (PyVal.list ((pySplitStr s '/').map PyVal.str)) from rfl] at h
    dsimp only at h
    exact pySplitEach_ok_shape h
  · rw [if_pos rfl] at h
    rw [show pySplit (PyVal.str s) '|'
        = Except.ok (PyVal.list ((pySplitStr s '|').map PyVal.str)) from rfl] at h
    dsimp only at h
    cases h1 : pySplitEach (.list ((pySplitStr s '|').map PyVal.str)) '/' with
    | error e => rw [h1] at h; exact absurd h (by simp)
    | ok inner =>
      rw [h1] at h
      dsimp only at h
      exact pySplitEach_ok_shape h

/-- C1: the spec says a multiple-choice response string is decoded by
splitting on `|`, then `/`, then `;` into three nesting levels, with
`"a/b|c"` decoding to `[[["a"],["b"]], [["c"]]]`.  The source instead
evaluates `[y.split(';') for y in [x.split('/') for x in truth.split('|')]]`:
the outer comprehension calls `.split` on the inner lists, so every
multiple-choice string response raises `AttributeError`. -/
theorem c1_multiple_choice_decode_raises :
    decodeResponse (PyVal.str "multiple-choice") (PyVal.str "a/b|c")
      = Except.error (PyErr.attributeError "split") := rfl

/-- C7: a non-multiple-choice string response is decoded by splitting on
`/` into sub-responses and each sub-response on `;` into atomic tokens. -/
theorem c7_plain_decode_splits (rt : PyVal) (s : String)
    (h : isMultipleChoice rt = false) :
    decodeResponse rt (.str s)
      = .ok (.list ((pySplitStr s '/').map
          (fun seg => PyVal.list ((pySplitStr seg ';').map PyVal.str)))) := by
  unfold decodeResponse
  rw [h]
  dsimp only
  rw [if_neg Bool.false_ne_true]
  rw [show pySplit (PyVal.str s) '/'
      = Except.ok (PyVal.list ((pySplitStr s '/').map PyVal.str)) from rfl]
  dsimp only
  simp [pySplitEach, exMapM_pySplit_strs, Except.map]

/-- Witness for C7 at the spec's Scenario B input `"a;b/c"`. -/
theorem c7_plain_decode_splits_witness :
    decodeResponse (PyVal.str "single-choice") (PyVal.str "a;b/c")
      = .ok (.list [.list [.str "a", .str "b"], .list [.str "c"]]) :=
  (c7_plain_decode_splits (PyVal.str "single-choice") "a;b/c" rfl).trans rfl

/-- C8: decoding leaves an already-structured (non-string) value unchanged,
and decoding twice equals decoding once (in the exception monad: a second
decode of any successful decode result is the identity). -/
theorem c8_decode_idempotent (rt v : PyVal) :
    ((∀ s, v ≠ PyVal.str s) → decodeResponse rt v = .ok v)
    ∧ (decodeResponse rt v).bind (decodeResponse rt) = decodeResponse rt v := by
  constructor
  · intro h
    cases v with
    | str s => exact absurd rfl (h s)
    | int n => rfl
    | list l => rfl
  · cases v with
    | str s =>
      cases hd : decodeResponse rt (.str s) with
      | error e => simp [Except.bind]
      | ok w =>
        obtain ⟨l, rfl⟩ := decode_str_shape hd
        simp [Except.bind, decodeResponse]
    | int n => simp [decodeResponse, Except.bind]
    | list l => simp [decodeResponse, Except.bind]

/-- Witness for C8 at a structured (list) value. -/
theorem c8_decode_idempotent_witness :
    decodeResponse (PyVal.str "p") (PyVal.list []) = .ok (PyVal.list [])
    ∧ (decodeResponse (PyVal.str "p") (PyVal.list [])).bind
        (decodeResponse (PyVal.str "p"))
      = decodeResponse (PyVal.str "p") (PyVal.list []) :=
  ⟨(c8_decode_idempotent (PyVal.str "p") (PyVal.list [])).1
      (fun s h => PyVal.noConfusion h),
   (c8_decode_idempotent (PyVal.str "p") (PyVal.list [])).2⟩

/-- A training row whose dataframe index label (0) differs from its
`sequence` column value (5). -/
def c2Row : Row :=
  ⟨0, [("id", .int 7), ("sequence", .int 5), ("domain", .str "d"),
       ("task", .str "t"), ("response_type", .str "single-choice"),
       ("choices", .str "c"), ("response", .list [])]⟩

/-- C2: the spec says the training record's `sequence` entry equals the
row's value in the `sequence` column.  The source takes it from
`iterrows()` (`for seq_info, row in subj_df.sort_values(['sequence']).iterrows()`),
which yields the dataframe index label, not the sort key; the real
`sequence` column value is then dropped by the no-overwrite merge.  On a
row at index 0 whose `sequence` column holds 5, the record carries 0. -/
theorem c2_training_sequence_is_index_not_column :
    (prepareTrainData [c2Row]).map
        (fun subjs => subjs.map (fun dicts => dicts.map
          (fun d => d.lookup "sequence")))
      = .ok [[some (TVal.py (PyVal.int 0))]]
    ∧ c2Row.col "sequence" = PyVal.int 5 := ⟨rfl, rfl⟩

theorem perm_append_singleton_erase (l : List String) (a : String) :
    ((l ++ [a]).erase a).Perm l := by
  by_cases h : a ∈ l
  · rw [List.erase_append_left _ h]
    exact (List.perm_append_singleton a _).trans (List.perm_cons_erase h).symm
  · rw [List.erase_append_right _ h]
    simp

/-- C9: whatever the body of `dir_context` does — return normally or raise —
the working directory is restored to its prior value and the search-path
entry appended for the model directory is removed again (`finally` block,
evaluator.py lines 20-22); the body's outcome passes through unchanged.
The hypothesis states that the body itself leaves the working directory
and the search path as it found them, which the evaluation body does. -/
theorem c9_dir_context_restores {α : Type} (path : String)
    (body : Sys → Sys × Except PyErr α) (s : Sys)
    (hbody : ∀ t, (body t).1.cwd = t.cwd ∧ (body t).1.searchPath = t.searchPath) :
    (dir_context path body s).1.cwd = s.cwd
    ∧ ((dir_context path body s).1.searchPath).Perm s.searchPath
    ∧ (dir_context path body s).2
        = (body { s with cwd := path, searchPath := s.searchPath ++ [path] }).2 := by
  refine ⟨rfl, ?_, rfl⟩
  show (((body _).1.searchPath).erase path).Perm s.searchPath
  rw [(hbody _).2]
  exact perm_append_singleton_erase _ _

/-- A body that raises, leaving the directory state untouched. -/
def c9Body : Sys → Sys × Except PyErr Unit :=
  fun t => (t, .error (.keyError "boom"))

def c9Sys : Sys := ⟨"home", ["lib"], [], []⟩

/-- Witness for C9 on a failing body. -/
theorem c9_dir_context_restores_witness :
    (dir_context "mdir" c9Body c9Sys).1.cwd = c9Sys.cwd
    ∧ ((dir_context "mdir" c9Body c9Sys).1.searchPath).Perm c9Sys.searchPath
    ∧ (dir_context "mdir" c9Body c9Sys).2
        = (c9Body
            { c9Sys with cwd := "mdir", searchPath := c9Sys.searchPath ++ ["mdir"] }).2 :=
  c9_dir_context_restores "mdir" c9Body c9Sys (fun t => ⟨rfl, rfl⟩)

theorem length_rangeInt (start len : Nat) : (rangeInt start len).length = len := by
  rw [rangeInt, List.length_map, List.length_range']

theorem mem_rangeInt {x : Int} {s n : Nat} :
    x ∈ rangeInt s n ↔ (s : Int) ≤ x ∧ x < (s : Int) + n := by
  rw [rangeInt, List.mem_map]
  constructor
  · rintro ⟨m, hm, rfl⟩
    rw [List.mem_range'_1] at hm
    rw [Int.ofNat_eq_coe]
    omega
  · rintro ⟨h1, h2⟩
    refine ⟨x.toNat, by rw [List.mem_range'_1]; omega, ?_⟩
    rw [Int.ofNat_eq_coe]
    omega

theorem map_lookup_zip :
    ∀ (ks vs : List Int), ks.Nodup → ks.length = vs.length →
      ks.map (fun k => (((ks.zip vs).lookup k).getD k)) = vs := by
  intro ks
  induction ks with
  | nil =>
    intro vs _ hlen
    cases vs with
    | nil => rfl
    | cons v vs => simp at hlen
  | cons a ks ih =>
    intro vs hnd hlen
    cases vs with
    | nil => simp at hlen
    | cons v vs =>
      have hane : a ∉ ks := (List.nodup_cons.mp hnd).1
      simp only [List.zip_cons_cons, List.map_cons]
      congr 1
      · simp [List.lookup]
      · have hcong : ∀ k ∈ ks,
            ((((a, v) :: ks.zip vs).lookup k).getD k)
              = (((ks.zip vs).lookup k).getD k) := by
          intro k hk
          have hka : (k == a) = false := by
            simp only [beq_eq_false_iff_ne, ne_eq]
            rintro rfl
            exact hane hk
          simp [List.lookup, hka]
        rw [List.map_congr_left hcong,
          ih vs (List.nodup_cons.mp hnd).2 (by simpa using hlen)]

theorem map_applyMap_zip_range (ids : List Int) (start : Nat) :
    (uniq ids).map (applyMap ((uniq ids).zip (rangeInt start (uniq ids).length)))
      = rangeInt start (uniq ids).length := by
  have := map_lookup_zip (uniq ids) (rangeInt start (uniq ids).length)
    (nodup_uniq ids) (by rw [length_rangeInt])
  simpa [applyMap] using this

/-- C5: with `corresponding_data=False` and a training set present, the
replacement dicts built at lines 57-62 map the distinct training ids, in
first-occurrence order, exactly onto `0, …, T-1` and the distinct test ids
onto `T, …, T+S-1`; consequently no remapped training id ever equals a
remapped test id. -/
theorem c5_reconciler_bijective_disjoint (train test : List Int) :
    ((uniq train).map (applyMap (new_train_ids train))
        = rangeInt 0 (uniq train).length)
    ∧ ((uniq test).map (applyMap (new_test_ids train test))
        = rangeInt (uniq train).length (uniq test).length)
    ∧ ∀ a ∈ seriesReplace train (new_train_ids train),
        ∀ b ∈ seriesReplace test (new_test_ids train test), a ≠ b := by
  refine ⟨map_applyMap_zip_range train 0, map_applyMap_zip_range test _, ?_⟩
  intro a ha b hb
  obtain ⟨va, hva, rfl⟩ := List.mem_map.mp ha
  obtain ⟨vb, hvb, rfl⟩ := List.mem_map.mp hb
  have ha' : applyMap (new_train_ids train) va ∈ rangeInt 0 (uniq train).length := by
    rw [← map_applyMap_zip_range train 0]
    exact List.mem_map_of_mem _ ((mem_uniq _ _).mpr hva)
  have hb' : applyMap (new_test_ids train test) vb
      ∈ rangeInt (uniq train).length (uniq test).length := by
    rw [← map_applyMap_zip_range test (uniq train).length]
    exact List.mem_map_of_mem _ ((mem_uniq _ _).mpr hvb)
  have h1 := (mem_rangeInt.mp ha').2
  have h2 := (mem_rangeInt.mp hb').1
  intro he
  rw [he] at h1
  omega

theorem evalModel_domain_fail (pf : String → Item → PyVal)
    (cf : PyVal → PyVal → Bool) (df : PyVal → String)
    (domains rts : List String) (train : Option (List Row)) (test : List Row)
    (m : CModel) (s : Sys)
    (hd : missingFrom domains m.supported_domains ≠ []) :
    evalModel pf cf df domains rts train test m s
      = ({ cwd := s.cwd, searchPath := (s.searchPath ++ [m.dir]).erase m.dir,
           registered := s.registered ++ [m.name],
           trace := s.trace ++ [Event.moduleLoad m.name] },
         Except.error (.unsupportedDomains m.name
           (missingFrom domains m.supported_domains))) := by
  unfold evalModel dir_context evalModelBody emit
  dsimp only
  rw [if_neg hd]

theorem evalModel_rt_fail (pf : String → Item → PyVal)
    (cf : PyVal → PyVal → Bool) (df : PyVal → String)
    (domains rts : List String) (train : Option (List Row)) (test : List Row)
    (m : CModel) (s : Sys)
    (hd : missingFrom domains m.supported_domains = [])
    (hr : missingFrom rts m.supported_response_types ≠ []) :
    evalModel pf cf df domains rts train test m s
      = ({ cwd := s.cwd, searchPath := (s.searchPath ++ [m.dir]).erase m.dir,
           registered := s.registered ++ [m.name],
           trace := s.trace ++ [Event.moduleLoad m.name] },
         Except.error (.unsupportedResponseTypes m.name
           (missingFrom rts m.supported_response_types))) := by
  unfold evalModel dir_context evalModelBody emit
  dsimp only
  rw [if_pos hd, if_neg hr]

/-- C10: when a model's applicability check fails, the raise happens before
`importer.unimport()` (line 194), so the only observable effect of the
model's turn is the module load: the trace gains no unload event, the
module registration stays in place, and only the working-directory /
search-path context is reverted by `dir_context`. -/
theorem c10_applicability_fail_skips_unimport (pf : String → Item → PyVal)
    (cf : PyVal → PyVal → Bool) (df : PyVal → String)
    (domains rts : List String) (train : Option (List Row)) (test : List Row)
    (m : CModel) (s : Sys)
    (h : missingFrom domains m.supported_domains ≠ []
      ∨ missingFrom rts m.supported_response_types ≠ [])
    (hu : Event.moduleUnload m.name ∉ s.trace) :
    (evalModel pf cf df domains rts train test m s).1.trace
        = s.trace ++ [Event.moduleLoad m.name]
    ∧ Event.moduleUnload m.name ∉ (evalModel pf cf df domains rts train test m s).1.trace
    ∧ m.name ∈ (evalModel pf cf df domains rts train test m s).1.registered
    ∧ (evalModel pf cf df domains rts train test m s).1.cwd = s.cwd
    ∧ ((evalModel pf cf df domains rts train test m s).1.searchPath).Perm s.searchPath
    ∧ ∃ e, (evalModel pf cf df domains rts train test m s).2 = Except.error e := by
  by_cases hd : missingFrom domains m.supported_domains = []
  · have hr : missingFrom rts m.supported_response_types ≠ [] := by
      rcases h with h | h
      · exact absurd hd h
      · exact h
    rw [evalModel_rt_fail pf cf df domains rts train test m s hd hr]
    refine ⟨rfl, ?_, by simp, rfl, perm_append_singleton_erase _ _, ⟨_, rfl⟩⟩
    simp only [List.mem_append, List.mem_singleton]
    rintro (hin | hin)
    · exact hu hin
    · exact Event.noConfusion hin
  · rw [evalModel_domain_fail pf cf df domains rts train test m s hd]
    refine ⟨rfl, ?_, by simp, rfl, perm_append_singleton_erase _ _, ⟨_, rfl⟩⟩
    simp only [List.mem_append, List.mem_singleton]
    rintro (hin | hin)
    · exact hu hin
    · exact Event.noConfusion hin

/-- A trivial predict hook for concrete runs. -/
def pf0 : String → Item → PyVal := fun _ _ => PyVal.int 0

/-- A trivial comparator for concrete runs. -/
def cf0 : PyVal → PyVal → Bool := fun _ _ => true

/-- A trivial display formatter for concrete runs. -/
def df0 : PyVal → String := fun _ => "x"

/-- A model supporting nothing. -/
def badModel : CModel := ⟨"bad", "dirB", [], []⟩

/-- A model supporting the whole registry of `smallTest`. -/
def goodModel : CModel := ⟨"good", "dirG", ["d1"], ["r1"]⟩

def smallTest : List Row :=
  [⟨0, [("id", .int 1), ("sequence", .int 1), ("domain", .str "d1"),
        ("task", .str "t"), ("response_type", .str "r1"),
        ("choices", .str "c"), ("response", .list [])]⟩]

/-- Witness for C10 at a concrete failing model. -/
theorem c10_applicability_fail_skips_unimport_witness :
    (evalModel pf0 cf0 df0 ["d1"] ["r1"] none smallTest badModel ⟨"cwd0", [], [], []⟩).1.trace
        = (Sys.mk "cwd0" [] [] []).trace ++ [Event.moduleLoad badModel.name]
    ∧ Event.moduleUnload badModel.name
        ∉ (evalModel pf0 cf0 df0 ["d1"] ["r1"] none smallTest badModel ⟨"cwd0", [], [], []⟩).1.trace
    ∧ badModel.name ∈ (evalModel pf0 cf0 df0 ["d1"] ["r1"] none smallTest badModel ⟨"cwd0", [], [], []⟩).1.registered
    ∧ (evalModel pf0 cf0 df0 ["d1"] ["r1"] none smallTest badModel ⟨"cwd0", [], [], []⟩).1.cwd
        = (Sys.mk "cwd0" [] [] []).cwd
    ∧ ((evalModel pf0 cf0 df0 ["d1"] ["r1"] none smallTest badModel ⟨"cwd0", [], [], []⟩).1.searchPath).Perm
        (Sys.mk "cwd0" [] [] []).searchPath
    ∧ ∃ e, (evalModel pf0 cf0 df0 ["d1"] ["r1"] none smallTest badModel ⟨"cwd0", [], [], []⟩).2
        = Except.error e :=
  c10_applicability_fail_skips_unimport pf0 cf0 df0 ["d1"] ["r1"] none smallTest
    badModel ⟨"cwd0", [], [], []⟩ (Or.inl (by decide)) (by decide)

/-- C3 counterexample: with the model list `[badModel, goodModel]`, the failing
applicability check on `badModel` raises a `ValueError` that propagates out of
`evaluate`: the run ends with the error (no result table at all) and the
trace shows `goodModel` was never even loaded — contradicting the claim that
the failure is fatal only for the offending model and subsequent models
still run to completion. -/
theorem c3_applicability_error_counterexample :
    (evaluate pf0 cf0 df0 ["d1"] ["r1"] none smallTest [badModel, goodModel]
        ⟨"cwd0", [], [], []⟩).2
      = Except.error (PyErr.unsupportedDomains "bad" ["d1"])
    ∧ (evaluate pf0 cf0 df0 ["d1"] ["r1"] none smallTest [badModel, goodModel]
        ⟨"cwd0", [], [], []⟩).1.trace
      = [Event.moduleLoad "bad"] := ⟨rfl, rfl⟩

/-- C3 (amended): an applicability failure is fatal to the entire run, not
just to the offending model: `evaluate` propagates the `ValueError`, the
accumulated result rows are lost, and the models after the failing one are
never evaluated (the run's outcome does not depend on them at all). -/
theorem c3_applicability_error_fatal_to_run (pf : String → Item → PyVal)
    (cf : PyVal → PyVal → Bool) (df : PyVal → String)
    (domains rts : List String) (train : Option (List Row)) (test : List Row)
    (m : CModel) (rest rest' : List CModel) (s : Sys) (acc : List ResultRow)
    (h : missingFrom domains m.supported_domains ≠ []
      ∨ missingFrom rts m.supported_response_types ≠ []) :
    (∃ e, (evalLoop pf cf df domains rts train test (m :: rest) s acc).2
        = Except.error e)
    ∧ evalLoop pf cf df domains rts train test (m :: rest) s acc
        = evalLoop pf cf df domains rts train test (m :: rest') s acc := by
  by_cases hd : missingFrom domains m.supported_domains = []
  · have hr : missingFrom rts m.supported_response_types ≠ [] := by
      rcases h with h | h
      · exact absurd hd h
      · exact h
    have he := evalModel_rt_fail pf cf df domains rts train test m s hd hr
    exact ⟨⟨PyErr.unsupportedResponseTypes m.name
        (missingFrom rts m.supported_response_types),
      by simp only [evalLoop, he]⟩, by simp only [evalLoop, he]⟩
  · have he := evalModel_domain_fail pf cf df domains rts train test m s hd
    exact ⟨⟨PyErr.unsupportedDomains m.name
        (missingFrom domains m.supported_domains),
      by simp only [evalLoop, he]⟩, by simp only [evalLoop, he]⟩

/-- Witness for the amended C3. -/
theorem c3_applicability_error_fatal_to_run_witness :
    (∃ e, (evalLoop pf0 cf0 df0 ["d1"] ["r1"] none smallTest [badModel, goodModel]
        ⟨"cwd0", [], [], []⟩ []).2 = Except.error e)
    ∧ evalLoop pf0 cf0 df0 ["d1"] ["r1"] none smallTest [badModel, goodModel]
        ⟨"cwd0", [], [], []⟩ []
      = evalLoop pf0 cf0 df0 ["d1"] ["r1"] none smallTest [badModel]
        ⟨"cwd0", [], [], []⟩ [] :=
  c3_applicability_error_fatal_to_run pf0 cf0 df0 ["d1"] ["r1"] none smallTest
    badModel [goodModel] [] ⟨"cwd0", [], [], []⟩ [] (Or.inl (by decide))

/-- The three hook calls one trial performs, in program order. -/
def trialEvents (mname : String) (k : Int) (r : Row) : List Event :=
  [.predictCall mname k (seqKey r), .compareCall mname k (seqKey r),
   .adaptCall mname k (seqKey r)]

/-- The result row one successful trial appends (the decode fallback is
never used on the success path). -/
def trialRow (pf : String → Item → PyVal) (cf : PyVal → PyVal → Bool)
    (df : PyVal → String) (mname : String) (k : Int) (r : Row) : ResultRow :=
  let truth :=
    match decodeResponse (r.col "response_type") (r.col "response") with
    | .ok t => t
    | .error _ => PyVal.str ""
  let pred := pf mname (mkItem k r)
  { model := mname, id := k, domain := r.col "domain",
    sequence := r.col "sequence", task := r.col "task",
    choices := r.col "choices", truth := truth,
    prediction := df pred, hit := cf pred truth }

theorem runTrial_decode_error {pf : String → Item → PyVal}
    {cf : PyVal → PyVal → Bool} {df : PyVal → String}
    {mname : String} {k : Int} {r : Row} {s : Sys} {e : PyErr}
    (hdec : decodeResponse (r.col "response_type") (r.col "response")
      = .error e) :
    runTrial pf cf df mname k r s = (s, .error e) := by
  unfold runTrial
  rw [hdec]

theorem runTrial_decode_ok {pf : String → Item → PyVal}
    {cf : PyVal → PyVal → Bool} {df : PyVal → String}
    {mname : String} {k : Int} {r : Row} {s : Sys} {t : PyVal}
    (hdec : decodeResponse (r.col "response_type") (r.col "response")
      = .ok t) :
    runTrial pf cf df mname k r s
      = ({ s with trace := s.trace ++ trialEvents mname k r },
         .ok (trialRow pf cf df mname k r)) := by
  unfold runTrial trialRow
  rw [hdec]
  simp [emit, trialEvents]

theorem runTrials_ok (pf : String → Item → PyVal)
    (cf : PyVal → PyVal → Bool) (df : PyVal → String)
    (mname : String) (k : Int) :
    ∀ (rows : List Row) (s : Sys) (acc out : List ResultRow),
      (runTrials pf cf df mname k rows s acc).2 = Except.ok out →
      (runTrials pf cf df mname k rows s acc).1.trace
          = s.trace ++ rows.flatMap (trialEvents mname k)
      ∧ out = acc ++ rows.map (trialRow pf cf df mname k) := by
  intro rows
  induction rows with
  | nil =>
    intro s acc out h
    simp only [runTrials] at h ⊢
    exact ⟨by simp, by simpa using (Except.ok.inj h).symm⟩
  | cons r rest ih =>
    intro s acc out h
    cases hdec : decodeResponse (r.col "response_type") (r.col "response") with
    | error e =>
      rw [runTrials, runTrial_decode_error hdec] at h
      exact absurd h (by simp)
    | ok t =>
      rw [runTrials, runTrial_decode_ok hdec] at h ⊢
      obtain ⟨htr, hout⟩ := ih _ _ _ h
      constructor
      · rw [htr]
        simp
      · rw [hout]
        simp

/-- C6: a subject's trial rows are processed in ascending `sequence` order:
on a successful run the trace is the participant start followed, trial by
trial, by the predict / compare / adapt calls of the rows as reordered by
`sort_values('sequence')`, whose sequence keys are ascending and which is a
permutation of the subject's rows. -/
theorem c6_trials_processed_in_ascending_sequence (pf : String → Item → PyVal)
    (cf : PyVal → PyVal → Bool) (df : PyVal → String)
    (mname : String) (k : Int) (g : List Row) (s : Sys) (rows : List ResultRow)
    (h : (runSubject pf cf df mname k g s).2 = Except.ok rows) :
    (runSubject pf cf df mname k g s).1.trace
        = s.trace ++ Event.participantStart mname k
            :: (sort_values g).flatMap (trialEvents mname k)
    ∧ List.Sorted (· ≤ ·) ((sort_values g).map seqKey)
    ∧ (sort_values g).Perm g := by
  unfold runSubject at h ⊢
  obtain ⟨htr, _⟩ := runTrials_ok pf cf df mname k (sort_values g) _ _ _ h
  refine ⟨?_, ?_, List.perm_insertionSort _ g⟩
  · rw [htr]
    simp [emit]
  · have hs := List.sorted_insertionSort (fun a b : Row => seqKey a ≤ seqKey b) g
    exact List.Pairwise.map _ (fun a b hab => hab) hs

/-- A subject whose two trials appear with sequence values 2 then 1. -/
def c6RowA : Row :=
  ⟨0, [("id", .int 1), ("sequence", .int 2), ("domain", .str "d1"),
       ("task", .str "t"), ("response_type", .str "r1"),
       ("choices", .str "c"), ("response", .list [])]⟩

def c6RowB : Row :=
  ⟨1, [("id", .int 1), ("sequence", .int 1), ("domain", .str "d1"),
       ("task", .str "t"), ("response_type", .str "r1"),
       ("choices", .str "c"), ("response", .list [])]⟩

/-- Witness for C6 at the spec's Scenario A (sequence values `[2, 1]`). -/
theorem c6_trials_processed_in_ascending_sequence_witness :
    (runSubject pf0 cf0 df0 "m" 1 [c6RowA, c6RowB] ⟨"w", [], [], []⟩).1.trace
        = (Sys.mk "w" [] [] []).trace ++ Event.participantStart "m" 1
            :: (sort_values [c6RowA, c6RowB]).flatMap (trialEvents "m" 1)
    ∧ List.Sorted (· ≤ ·) ((sort_values [c6RowA, c6RowB]).map seqKey)
    ∧ (sort_values [c6RowA, c6RowB]).Perm [c6RowA, c6RowB] :=
  c6_trials_processed_in_ascending_sequence pf0 cf0 df0 "m" 1
    [c6RowA, c6RowB] ⟨"w", [], [], []⟩ _ rfl

theorem participantOrder_append (t1 t2 : List Event) :
    participantOrder (t1 ++ t2) = participantOrder t1 ++ participantOrder t2 :=
  List.filterMap_append t1 t2 _

theorem participantOrder_trialEvents (mname : String) (k : Int)
    (rows : List Row) :
    participantOrder (rows.flatMap (trialEvents mname k)) = [] := by
  induction rows with
  | nil => rfl
  | cons r rest ih =>
    rw [List.flatMap_cons, participantOrder_append, ih]
    rfl

theorem runSubjects_ok (pf : String → Item → PyVal)
    (cf : PyVal → PyVal → Bool) (df : PyVal → String) (mname : String) :
    ∀ (groups : List (Int × List Row)) (s : Sys) (acc out : List ResultRow),
      (runSubjects pf cf df mname groups s acc).2 = Except.ok out →
      participantOrder (runSubjects pf cf df mname groups s acc).1.trace
          = participantOrder s.trace ++ groups.map Prod.fst
      ∧ out = acc ++ groups.flatMap
          (fun kg => (sort_values kg.2).map (trialRow pf cf df mname kg.1)) := by
  intro groups
  induction groups with
  | nil =>
    intro s acc out h
    simp only [runSubjects] at h ⊢
    exact ⟨by simp, by simpa using (Except.ok.inj h).symm⟩
  | cons kg rest ih =>
    intro s acc out h
    rw [runSubjects] at h ⊢
    cases hsub : runSubject pf cf df mname kg.1 kg.2 s with
    | mk s' res =>
      cases res with
      | error e =>
        rw [hsub] at h
        dsimp only at h
        exact absurd h (by simp)
      | ok rows =>
        rw [hsub] at h
        dsimp only at h ⊢
        obtain ⟨htr, hout⟩ := ih _ _ _ h
        have hsub2 : (runSubject pf cf df mname kg.1 kg.2 s).2
            = Except.ok rows := by rw [hsub]
        obtain ⟨htr1, hrows⟩ := runTrials_ok pf cf df mname kg.1
          (sort_values kg.2) _ _ _ hsub2
        have hs'tr : s'.trace = (emit s (.participantStart mname kg.1)).trace
            ++ (sort_values kg.2).flatMap (trialEvents mname kg.1) := by
          have : (runSubject pf cf df mname kg.1 kg.2 s).1 = s' := by rw [hsub]
          rw [← this]
          exact htr1
        constructor
        · rw [htr, hs'tr, participantOrder_append, participantOrder_trialEvents]
          have hstart : participantOrder
                (emit s (.participantStart mname kg.1)).trace
              = participantOrder s.trace ++ [kg.1] := by
            simp only [emit]
            rw [participantOrder_append]
            rfl
          rw [hstart]
          simp
        · rw [hout, hrows]
          simp

theorem groupby_keys (df : List Row) :
    (groupby df).map Prod.fst
      = List.insertionSort (· ≤ ·) (uniq (df.map idKey)) := by
  unfold groupby
  rw [List.map_map]
  show List.map (fun k => k) _ = _
  rw [List.map_id']

/-- C4 counterexample: a test table whose ids occur in the order `[2, 1]`.
`groupby('id')` (pandas default `sort=True`) visits subject 1 before
subject 2, so the engine's participant-start order is `[1, 2]`, not the
first-occurrence order `[2, 1]` the claim asserts; the result rows' ids
follow the same sorted order. -/
def c4Test : List Row :=
  [⟨0, [("id", .int 2), ("sequence", .int 1), ("domain", .str "d1"),
        ("task", .str "t"), ("response_type", .str "r1"),
        ("choices", .str "c"), ("response", .list [])]⟩,
   ⟨1, [("id", .int 1), ("sequence", .int 1), ("domain", .str "d1"),
        ("task", .str "t"), ("response_type", .str "r1"),
        ("choices", .str "c"), ("response", .list [])]⟩]

theorem c4_subject_order_counterexample :
    participantOrder
        (runSubjects pf0 cf0 df0 "good" (groupby c4Test)
          ⟨"w", [], [], []⟩ []).1.trace
      = [1, 2]
    ∧ ((runSubjects pf0 cf0 df0 "good" (groupby c4Test)
          ⟨"w", [], [], []⟩ []).2).map (fun rows => rows.map ResultRow.id)
      = Except.ok [1, 2]
    ∧ uniq (c4Test.map idKey) = [2, 1] := ⟨rfl, rfl, rfl⟩

/-- C4 (amended): the per-subject loop visits the subject groups in
ascending order of the `id` key — pandas `groupby` sorts the group keys,
so the visiting order is the sorted distinct ids, not their
first-occurrence order — and on success the result rows are exactly the
groups' rows in that sorted group order, each group's trials in ascending
`sequence` order. -/
theorem c4_subjects_visited_in_sorted_id_order (pf : String → Item → PyVal)
    (cf : PyVal → PyVal → Bool) (df : PyVal → String) (mname : String)
    (test : List Row) (s : Sys) (rows : List ResultRow)
    (h : (runSubjects pf cf df mname (groupby test) s []).2 = Except.ok rows) :
    List.Sorted (· ≤ ·) ((groupby test).map Prod.fst)
    ∧ ((groupby test).map Prod.fst).Perm (uniq (test.map idKey))
    ∧ participantOrder
        (runSubjects pf cf df mname (groupby test) s []).1.trace
      = participantOrder s.trace ++ (groupby test).map Prod.fst
    ∧ rows = (groupby test).flatMap
        (fun kg => (sort_values kg.2).map (trialRow pf cf df mname kg.1)) := by
  obtain ⟨htr, hrows⟩ := runSubjects_ok pf cf df mname (groupby test) s [] rows h
  refine ⟨?_, ?_, htr, by simpa using hrows⟩
  · rw [groupby_keys]
    exact List.sorted_insertionSort _ _
  · rw [groupby_keys]
    exact List.perm_insertionSort _ _

/-- Witness for the amended C4 on the two-subject table. -/
theorem c4_subjects_visited_in_sorted_id_order_witness :
    List.Sorted (· ≤ ·) ((groupby c4Test).map Prod.fst)
    ∧ ((groupby c4Test).map Prod.fst).Perm (uniq (c4Test.map idKey))
    ∧ participantOrder
        (runSubjects pf0 cf0 df0 "good" (groupby c4Test)
          ⟨"w", [], [], []⟩ []).1.trace
      = participantOrder (Sys.mk "w" [] [] []).trace
          ++ (groupby c4Test).map Prod.fst
    ∧ (match (runSubjects pf0 cf0 df0 "good" (groupby c4Test)
          ⟨"w", [], [], []⟩ []).2 with
        | .ok rows => rows
        | .error _ => [])
      = (groupby c4Test).flatMap
        (fun kg => (sort_values kg.2).map (trialRow pf0 cf0 df0 "good" kg.1)) :=
  c4_subjects_visited_in_sorted_id_order pf0 cf0 df0 "good" c4Test
    ⟨"w", [], [], []⟩ _ rfl

/-- Witness for C5 at concrete id columns (`train = [5, 5, 3]`,
`test = [5, 7]`): remapped training ids are `[0, 0, 1]`, remapped test ids
are `[2, 3]`, and the disjointness conjunct applies at `0` and `2`. -/
theorem c5_reconciler_bijective_disjoint_witness :
    ((uniq [5, 5, 3]).map (applyMap (new_train_ids [5, 5, 3]))
        = rangeInt 0 (uniq [5, 5, 3]).length)
    ∧ ((uniq [5, 7]).map (applyMap (new_test_ids [5, 5, 3] [5, 7]))
        = rangeInt (uniq [5, 5, 3]).length (uniq [5, 7]).length)
    ∧ (0 : Int) ≠ 2 :=
  ⟨(c5_reconciler_bijective_disjoint [5, 5, 3] [5, 7]).1,
   (c5_reconciler_bijective_disjoint [5, 5, 3] [5, 7]).2.1,
   (c5_reconciler_bijective_disjoint [5, 5, 3] [5, 7]).2.2 0 (by decide)
     2 (by decide)⟩
